import Mathlib

/-!
Shallow embedding of mushroom/algorithms/td.py: the TD update rules
QLearning, DoubleQLearning, WeightedQLearning, SpeedyQLearning and SARSA.
Numeric values are modelled as rationals (exact arithmetic). The external
collaborators — the tabular value approximator, the learning-rate schedule,
the max_QA helper from mushroom.utils.dataset, np.sqrt and the random
draws — live outside the embedded file and are modelled from the
specification; randomness (the coin flip of DoubleQLearning, the Gaussian
draws of WeightedQLearning, the policy draw of SARSA) is passed in as an
explicit parameter representing the realized outcome.
-/

/-- Modelled from the spec: ValueApproximator in tabular form. `nA` is the
number of discrete actions, `q s a` the predicted action value at the
discretized state `s` and action `a`. `predict` is reading `q`. -/
structure Table where
  nA : ℕ
  q : ℕ → ℕ → ℚ

/-- Modelled from the spec: ValueApproximator.fit on a single (state, action)
pair overwrites that entry with the supplied target value. -/
def Table.update (t : Table) (s a : ℕ) (v : ℚ) : Table :=
  { t with q := fun s1 a1 => if s1 = s ∧ a1 = a then v else t.q s1 a1 }

/-- Modelled from the spec: LearningRateSchedule, a stateful function of a
(state, action) pair returning a step size; it carries per-state-action
visitation counters and supports deep copy (value semantics here). -/
structure LRSchedule where
  counts : ℕ → ℕ → ℕ
  rateFn : ℕ → ℚ

/-- Modelled from the spec: calling the schedule on (s, a) returns the step
size for the current counter at (s, a) and advances that counter. -/
def LRSchedule.call (p : LRSchedule) (s a : ℕ) : ℚ × LRSchedule :=
  (p.rateFn (p.counts s a),
   { p with counts := fun s1 a1 =>
      if s1 = s ∧ a1 = a then p.counts s1 a1 + 1 else p.counts s1 a1 })

/-- One transition sample: the tuple (sample[0], ..., sample[4]) of td.py,
i.e. (state, action, reward, next state, absorbing flag). -/
structure Sample where
  s : ℕ
  a : ℕ
  r : ℚ
  s2 : ℕ
  absorbing : Bool

/-- Modelled from the spec: first index attaining the maximum of `f` over
`{0, ..., n}` — the deterministic first-index-wins tie break of the shared
max-action-value helper (and of np.argmax). -/
def maxIdx (f : ℕ → ℚ) : ℕ → ℕ
  | 0 => 0
  | n + 1 => if f (maxIdx f n) < f (n + 1) then n + 1 else maxIdx f n

/-- Modelled from the spec: the maximizing action returned by the max_QA
helper of mushroom.utils.dataset over `nA` discrete actions. -/
def argmax_QA (f : ℕ → ℚ) (nA : ℕ) : ℕ := maxIdx f (nA - 1)

/-- Modelled from the spec: the maximum predicted action value returned by
the max_QA helper over `nA` discrete actions. -/
def max_QA (f : ℕ → ℚ) (nA : ℕ) : ℚ := f (argmax_QA f nA)

/-- First index attaining the minimum of `f` over `{0, ..., n}`; used only to
state the spec phrase min(means). -/
def minIdx (f : ℕ → ℚ) : ℕ → ℕ
  | 0 => 0
  | n + 1 => if f (n + 1) < f (minIdx f n) then n + 1 else minIdx f n

/-- The spec phrase min(means): minimum of `f` over `nA` discrete actions. -/
def minVal (f : ℕ → ℚ) (nA : ℕ) : ℚ := f (minIdx f (nA - 1))

/-- State owned by a plain TD rule (QLearning): the approximator and the
learning-rate schedule. -/
structure TDState where
  approx : Table
  lr : LRSchedule

/-- QLearning: TD.fit (td.py lines 27-38) with the QLearning._next_q
bootstrap (lines 55-67), i.e. the max_QA value at the next state; the
bootstrap is forced to 0 on an absorbing sample (line 33). -/
def QLearning.fit (γ : ℚ) (sm : Sample) (st : TDState) : TDState :=
  let q_current := st.approx.q sm.s sm.a
  let q_next : ℚ := if sm.absorbing then 0 else max_QA (st.approx.q sm.s2) st.approx.nA
  let alr := st.lr.call sm.s sm.a
  let q := q_current + alr.1 * (sm.r + γ * q_next - q_current)
  { approx := st.approx.update sm.s sm.a q, lr := alr.2 }

/-- State owned by SARSA: as TDState plus the pending next action side
channel (self._next_action). -/
structure SarsaState where
  approx : Table
  lr : LRSchedule
  next_action : Option ℕ

/-- SARSA: TD.fit with the SARSA._next_q bootstrap (td.py lines 260-275):
draw the next action from the policy, record it, and predict at
(next state, drawn action); on an absorbing sample _next_q is not called
(line 33), so no action is drawn. `policy` is the realized draw. -/
def SARSA.fit (γ : ℚ) (policy : ℕ → ℕ) (sm : Sample) (st : SarsaState) : SarsaState :=
  let q_current := st.approx.q sm.s sm.a
  let qna : ℚ × Option ℕ :=
    if sm.absorbing then (0, st.next_action)
    else (st.approx.q sm.s2 (policy sm.s2), some (policy sm.s2))
  let alr := st.lr.call sm.s sm.a
  let q := q_current + alr.1 * (sm.r + γ * qna.1 - q_current)
  { approx := st.approx.update sm.s sm.a q, lr := alr.2, next_action := qna.2 }

/-- State owned by DoubleQLearning: two approximators (the ensemble models)
and the two deep-copied learning-rate schedules, indexed by 0 and 1. -/
structure DQState where
  approx : ℕ → Table
  lr : ℕ → LRSchedule

/-- An approximator ensemble as supplied to DoubleQLearning at
construction: a model count and the models. -/
structure Ensemble where
  n_models : ℕ
  models : ℕ → Table

/-- DoubleQLearning.__init__ (td.py lines 76-85): deep copy the learning
rate into a pair and assert that the ensemble has exactly 2 models;
any other size raises AssertionError (Except.error here). -/
def DoubleQLearning.init (e : Ensemble) (lr : LRSchedule) : Except Unit DQState :=
  if e.n_models = 2 then
    Except.ok { approx := e.models, lr := fun _ => lr }
  else
    Except.error ()

/-- DoubleQLearning._next_q (td.py lines 105-121): the action a_n maximizing
the chosen approximator at the next state, evaluated by the other
approximator. -/
def DoubleQLearning.nextQ (st : DQState) (idx : ℕ) (s2 : ℕ) : ℚ :=
  let a_n := argmax_QA ((st.approx idx).q s2) (st.approx idx).nA
  (st.approx (1 - idx)).q s2 a_n

/-- DoubleQLearning.fit (td.py lines 87-103). `idx` is the realized coin
flip (0 if np.random.uniform() < 0.5 else 1): only approximator `idx` and
learning rate `idx` are touched; the bootstrap is forced to 0 on an
absorbing sample (line 97). -/
def DoubleQLearning.fit (γ : ℚ) (idx : ℕ) (sm : Sample) (st : DQState) : DQState :=
  let q_current := (st.approx idx).q sm.s sm.a
  let q_next : ℚ := if sm.absorbing then 0 else DoubleQLearning.nextQ st idx sm.s2
  let alr := (st.lr idx).call sm.s sm.a
  let q := q_current + alr.1 * (sm.r + γ * q_next - q_current)
  { approx := fun j => if j = idx then (st.approx idx).update sm.s sm.a q else st.approx j,
    lr := fun j => if j = idx then alr.2 else st.lr j }

/-- State owned by SpeedyQLearning: the approximator, the shadow copy
self.old_q and the learning-rate schedule. -/
structure SpeedyState where
  approx : Table
  old_q : Table
  lr : LRSchedule

/-- SpeedyQLearning.__init__ (td.py lines 219-224): the shadow old_q starts
as a deep copy of the supplied approximator. -/
def SpeedyQLearning.init (approx : Table) (lr : LRSchedule) : SpeedyState :=
  { approx := approx, old_q := approx, lr := lr }

/-- SpeedyQLearning.fit (td.py lines 226-247): snapshot the pre-update
approximator, compute max_QA at the next state under both the current
approximator and the shadow, blend the two targets, fit, then install the
snapshot as the new shadow. Note: this fit never consults sm.absorbing. -/
def SpeedyQLearning.fit (γ : ℚ) (sm : Sample) (st : SpeedyState) : SpeedyState :=
  let old_q := st.approx
  let max_q_cur := max_QA (st.approx.q sm.s2) st.approx.nA
  let max_q_old := max_QA (st.old_q.q sm.s2) st.old_q.nA
  let target_cur := sm.r + γ * max_q_cur
  let target_old := sm.r + γ * max_q_old
  let alr := st.lr.call sm.s sm.a
  let q_cur := st.approx.q sm.s sm.a
  let q := q_cur + alr.1 * (target_old - q_cur) + (1 - alr.1) * (target_cur - target_old)
  { approx := st.approx.update sm.s sm.a q, old_q := old_q, lr := alr.2 }

/-- Iterated SpeedyQLearning.fit: the state after k fit calls, call k+1
consuming samples k. -/
def SpeedyQLearning.run (γ : ℚ) (samples : ℕ → Sample) (st : SpeedyState) : ℕ → SpeedyState
  | 0 => st
  | k + 1 => SpeedyQLearning.fit γ (samples k) (SpeedyQLearning.run γ samples st k)

/-- State owned by WeightedQLearning (td.py lines 131-143): the
approximator, schedule, Monte-Carlo precision and the per-(state, action)
statistics arrays self._n_updates, self._Q, self._Q2, self._weights_var
and self._sigma, keyed by the discretized pair. -/
structure WQLState where
  approx : Table
  lr : LRSchedule
  precision : ℕ
  n_updates : ℕ × ℕ → ℕ
  Qm : ℕ × ℕ → ℚ
  Q2 : ℕ × ℕ → ℚ
  weights_var : ℕ × ℕ → ℚ
  sigma : ℕ × ℕ → ℚ

/-- WeightedQLearning.__init__ (td.py lines 139-143): counts, means, second
moments and weight variances start at 0; sigma starts at 1e10. -/
def WeightedQLearning.init (approx : Table) (lr : LRSchedule) (precision : ℕ) : WQLState :=
  { approx := approx, lr := lr, precision := precision,
    n_updates := fun _ => 0, Qm := fun _ => 0, Q2 := fun _ => 0,
    weights_var := fun _ => 0, sigma := fun _ => 10 ^ 10 }

/-- The weight of action `a` in WeightedQLearning._next_q (td.py lines
198-206): the number of the `precision` sampled rows whose argmax is `a`,
divided by the precision. `draws i a` is the realized Gaussian sample for
row i and action a. -/
def wqlWeight (draws : ℕ → ℕ → ℚ) (precision nA a : ℕ) : ℚ :=
  (((Finset.range precision).filter fun i => argmax_QA (draws i) nA = a).card : ℚ) /
    (precision : ℚ)

/-- WeightedQLearning._next_q (td.py lines 180-210), sampling branch (the
default; sampling=False raises NotImplementedError): the dot product of
the per-action weights with the per-action means predicted at the next
state. -/
def WeightedQLearning.nextQ (means : ℕ → ℚ) (nA : ℕ) (draws : ℕ → ℕ → ℚ)
    (precision : ℕ) : ℚ :=
  ∑ a in Finset.range nA, wqlWeight draws precision nA a * means a

/-- The flooring line self._sigma[self._sigma < 1e-10] = 1e-10 of td.py
line 178, applied to the whole sigma array. -/
def sigmaFloor (σ : ℕ × ℕ → ℚ) : ℕ × ℕ → ℚ :=
  fun k => if σ k < 1 / 10 ^ 10 then 1 / 10 ^ 10 else σ k

/-- WeightedQLearning.fit (td.py lines 145-178). `sqrtFn` abstracts
np.sqrt; `draws` is the realized matrix of Gaussian samples used by
_next_q on a non-absorbing sample. The statistics update mirrors lines
165-178: increment the count, incremental means of target and target²,
the weight-variance recurrence, and — only when the new count exceeds 1 —
the unbiased variance, its sigma, and the 1e-10 floor over the array. -/
def WeightedQLearning.fit (γ : ℚ) (sqrtFn : ℚ → ℚ) (draws : ℕ → ℕ → ℚ)
    (sm : Sample) (st : WQLState) : WQLState :=
  let sa_idx : ℕ × ℕ := (sm.s, sm.a)
  let q_current := st.approx.q sm.s sm.a
  let q_next : ℚ := if sm.absorbing then 0
    else WeightedQLearning.nextQ (st.approx.q sm.s2) st.approx.nA draws st.precision
  let target := sm.r + γ * q_next
  let alr := st.lr.call sm.s sm.a
  let α := alr.1
  let q := q_current + α * (target - q_current)
  let n2 : ℕ := st.n_updates sa_idx + 1
  let Qm2 := fun k => if k = sa_idx then st.Qm sa_idx + (target - st.Qm sa_idx) / (n2 : ℚ)
    else st.Qm k
  let Q22 := fun k => if k = sa_idx then st.Q2 sa_idx + (target ^ 2 - st.Q2 sa_idx) / (n2 : ℚ)
    else st.Q2 k
  let wv2 := fun k => if k = sa_idx then (1 - α) ^ 2 * st.weights_var sa_idx + α ^ 2
    else st.weights_var k
  let sigma2 :=
    if 1 < n2 then
      let var := (n2 : ℚ) * (Q22 sa_idx - Qm2 sa_idx ^ 2) / ((n2 : ℚ) - 1)
      let var_estimator := var * wv2 sa_idx
      sigmaFloor (fun k => if k = sa_idx then sqrtFn var_estimator else st.sigma k)
    else st.sigma
  { approx := st.approx.update sm.s sm.a q, lr := alr.2, precision := st.precision,
    n_updates := fun k => if k = sa_idx then n2 else st.n_updates k,
    Qm := Qm2, Q2 := Q22, weights_var := wv2, sigma := sigma2 }

/-- Iterated WeightedQLearning.fit from a given state: `samples k` and
`draws k` are the sample and realized Gaussian draws of call k+1. -/
def WeightedQLearning.run (γ : ℚ) (sqrtFn : ℚ → ℚ) (draws : ℕ → ℕ → ℕ → ℚ)
    (samples : ℕ → Sample) (st : WQLState) : ℕ → WQLState
  | 0 => st
  | k + 1 => WeightedQLearning.fit γ sqrtFn (draws k) (samples k)
      (WeightedQLearning.run γ sqrtFn draws samples st k)

/-- The shared assertion of every fit override (td.py lines 27, 88, 146,
227): assert n_iterations == 1 and len(dataset) == 1 before touching any
state; on failure the AssertionError propagates (Except.error here) and
nothing is read or written. -/
def fitChecked {St : Type} (core : Sample → St → St) (dataset : List Sample)
    (n_iterations : ℕ) (st : St) : Except Unit St :=
  if n_iterations = 1 ∧ dataset.length = 1 then
    match dataset with
    | sm :: _ => Except.ok (core sm st)
    | [] => Except.error ()
  else
    Except.error ()

/-- Fixture: an all-zero table with two actions. -/
def tbl0 : Table := ⟨2, fun _ _ => 0⟩

/-- Fixture: a constant learning-rate schedule with step size 1. -/
def lr0 : LRSchedule := ⟨fun _ _ => 0, fun _ => 1⟩

/-- Fixture: concrete states for each variant, and trivial draw functions. -/
def tdSt0 : TDState := ⟨tbl0, lr0⟩

/-- Fixture: SARSA state. -/
def sarsaSt0 : SarsaState := ⟨tbl0, lr0, none⟩

/-- Fixture: WeightedQLearning state with precision 2. -/
def wqlSt0 : WQLState := WeightedQLearning.init tbl0 lr0 2

/-- Fixture: SpeedyQLearning state. -/
def spSt0 : SpeedyState := SpeedyQLearning.init tbl0 lr0

/-- Fixture: DoubleQLearning state with two zero tables. -/
def dqSt0 : DQState := ⟨fun _ => tbl0, fun _ => lr0⟩

/-- Fixture: a constant draw matrix. -/
def draws0 : ℕ → ℕ → ℚ := fun _ _ => 0

/-- C2: at the end of every SpeedyQLearning fit call the shadow equals the
approximator as it was just before the update of that call; unrolled, at the
start of fit call k the shadow equals the approximator state after call
k-2, and the initial approximator state for k ≤ 2. -/
theorem speedy_shadow_invariant (γ : ℚ) (samples : ℕ → Sample) (approx : Table)
    (lr : LRSchedule) :
    ((SpeedyQLearning.run γ samples (SpeedyQLearning.init approx lr) 0).approx = approx) ∧
    ((SpeedyQLearning.run γ samples (SpeedyQLearning.init approx lr) 0).old_q = approx) ∧
    (∀ k, (SpeedyQLearning.run γ samples (SpeedyQLearning.init approx lr) (k + 1)).old_q =
      (SpeedyQLearning.run γ samples (SpeedyQLearning.init approx lr) k).approx) :=
  ⟨rfl, rfl, fun _ => rfl⟩

/-- C1: counter-evidence at a concrete input. On the absorbing sample
(s=0, a=0, r=0, next=1, absorbing=true) with gamma=1, step size 1 and a
table whose value at state 1 is 5, SpeedyQLearning.fit writes 5 — it
bootstraps from the next state although the sample is absorbing — while
QLearning.fit on the same input writes 0, the reward-only target the
claim demands. -/
theorem speedy_absorbing_bootstrap_bug :
    ((SpeedyQLearning.fit 1 ⟨0, 0, 0, 1, true⟩
        (SpeedyQLearning.init ⟨1, fun s _ => if s = 1 then 5 else 0⟩
          ⟨fun _ _ => 0, fun _ => 1⟩)).approx.q 0 0 = 5) ∧
    ((QLearning.fit 1 ⟨0, 0, 0, 1, true⟩
        ⟨⟨1, fun s _ => if s = 1 then 5 else 0⟩, ⟨fun _ _ => 0, fun _ => 1⟩⟩).approx.q 0 0
      = 0) ∧
    (5 : ℚ) ≠ 0 := by
  refine ⟨?_, ?_, by norm_num⟩ <;>
    norm_num [SpeedyQLearning.fit, SpeedyQLearning.init, QLearning.fit, max_QA,
      argmax_QA, maxIdx, LRSchedule.call, Table.update]

/-- C9: with gamma = 0 and a non-absorbing sample of reward 0, the value
written at (s, a) by the fit of every variant equals
q_current + alpha * (0 - q_current), with q_current the (chosen)
prediction of the (chosen) approximator and alpha the step size the
schedule returns there — independent of the bootstrap of the variant. -/
theorem zero_gamma_zero_reward_update (s a s2 : ℕ) (st : TDState) (sst : SarsaState)
    (wst : WQLState) (spst : SpeedyState) (dst : DQState) (idx : ℕ) (policy : ℕ → ℕ)
    (sqrtFn : ℚ → ℚ) (draws : ℕ → ℕ → ℚ) :
    ((QLearning.fit 0 ⟨s, a, 0, s2, false⟩ st).approx.q s a =
      st.approx.q s a + (st.lr.call s a).1 * (0 - st.approx.q s a)) ∧
    ((SARSA.fit 0 policy ⟨s, a, 0, s2, false⟩ sst).approx.q s a =
      sst.approx.q s a + (sst.lr.call s a).1 * (0 - sst.approx.q s a)) ∧
    ((WeightedQLearning.fit 0 sqrtFn draws ⟨s, a, 0, s2, false⟩ wst).approx.q s a =
      wst.approx.q s a + (wst.lr.call s a).1 * (0 - wst.approx.q s a)) ∧
    ((SpeedyQLearning.fit 0 ⟨s, a, 0, s2, false⟩ spst).approx.q s a =
      spst.approx.q s a + (spst.lr.call s a).1 * (0 - spst.approx.q s a)) ∧
    (((DoubleQLearning.fit 0 idx ⟨s, a, 0, s2, false⟩ dst).approx idx).q s a =
      (dst.approx idx).q s a + ((dst.lr idx).call s a).1 * (0 - (dst.approx idx).q s a)) := by
  refine ⟨?_, ?_, ?_, ?_, ?_⟩ <;>
    simp [QLearning.fit, SARSA.fit, WeightedQLearning.fit, SpeedyQLearning.fit,
      DoubleQLearning.fit, Table.update]

/-- The maximizing index is within the scanned prefix. -/
theorem maxIdx_le (f : ℕ → ℚ) : ∀ n, maxIdx f n ≤ n := by
  intro n
  induction n with
  | zero => simp [maxIdx]
  | succ n ih =>
    simp only [maxIdx]
    split
    · exact Nat.le_refl _
    · exact Nat.le_trans ih (Nat.le_succ n)

/-- Every scanned value is at most the value at the maximizing index. -/
theorem le_maxIdx (f : ℕ → ℚ) : ∀ n a, a ≤ n → f a ≤ f (maxIdx f n) := by
  intro n
  induction n with
  | zero =>
    intro a ha
    have h0 : a = 0 := Nat.le_zero.mp ha
    subst h0
    simp [maxIdx]
  | succ n ih =>
    intro a ha
    simp only [maxIdx]
    split
    · rename_i hlt
      rcases Nat.lt_succ_iff_lt_or_eq.mp (Nat.lt_succ_of_le ha) with h | h
      · exact le_of_lt (lt_of_le_of_lt (ih a (Nat.lt_succ_iff.mp h)) hlt)
      · exact le_of_eq (congrArg f h)
    · rename_i hlt
      rcases Nat.lt_succ_iff_lt_or_eq.mp (Nat.lt_succ_of_le ha) with h | h
      · exact ih a (Nat.lt_succ_iff.mp h)
      · exact (congrArg f h).le.trans (le_of_not_lt hlt)

/-- The value at the minimizing index is at most every scanned value. -/
theorem minIdx_le_apply (f : ℕ → ℚ) : ∀ n a, a ≤ n → f (minIdx f n) ≤ f a := by
  intro n
  induction n with
  | zero =>
    intro a ha
    have h0 : a = 0 := Nat.le_zero.mp ha
    subst h0
    simp [minIdx]
  | succ n ih =>
    intro a ha
    simp only [minIdx]
    split
    · rename_i hlt
      rcases Nat.lt_succ_iff_lt_or_eq.mp (Nat.lt_succ_of_le ha) with h | h
      · exact le_of_lt (lt_of_lt_of_le hlt (ih a (Nat.lt_succ_iff.mp h)))
      · exact le_of_eq (congrArg f h.symm)
    · rename_i hlt
      rcases Nat.lt_succ_iff_lt_or_eq.mp (Nat.lt_succ_of_le ha) with h | h
      · exact ih a (Nat.lt_succ_iff.mp h)
      · exact (le_of_not_lt hlt).trans (le_of_eq (congrArg f h.symm))

/-- The argmax returned by the max_QA helper is a valid action index. -/
theorem argmax_QA_lt (f : ℕ → ℚ) (nA : ℕ) (h : 0 < nA) : argmax_QA f nA < nA :=
  Nat.lt_of_le_of_lt (maxIdx_le f (nA - 1)) (Nat.sub_lt h Nat.one_pos)

/-- Every action value is at most the max_QA value. -/
theorem le_max_QA (f : ℕ → ℚ) (nA a : ℕ) (h : a < nA) : f a ≤ max_QA f nA :=
  le_maxIdx f (nA - 1) a (Nat.le_pred_of_lt h)

/-- The minVal value is at most every action value. -/
theorem minVal_le (f : ℕ → ℚ) (nA a : ℕ) (h : a < nA) : minVal f nA ≤ f a :=
  minIdx_le_apply f (nA - 1) a (Nat.le_pred_of_lt h)

/-- C3: on a non-absorbing sample, DoubleQLearning bootstraps with the
prediction of the non-chosen approximator at the action a_n that
maximizes the prediction of the chosen approximator at the next state: a_n is a valid action,
it maximizes approximator idx there, and the value written by fit uses the
prediction of approximator 1-idx at a_n inside the target. -/
theorem doubleq_bootstrap_decoupled (γ : ℚ) (idx : ℕ) (sm : Sample) (st : DQState)
    (hab : sm.absorbing = false) (hnA : 0 < (st.approx idx).nA) :
    (argmax_QA ((st.approx idx).q sm.s2) (st.approx idx).nA < (st.approx idx).nA) ∧
    (∀ b, b < (st.approx idx).nA → (st.approx idx).q sm.s2 b ≤
      (st.approx idx).q sm.s2 (argmax_QA ((st.approx idx).q sm.s2) (st.approx idx).nA)) ∧
    ((DoubleQLearning.fit γ idx sm st).approx idx).q sm.s sm.a =
      (st.approx idx).q sm.s sm.a + ((st.lr idx).call sm.s sm.a).1 *
        (sm.r + γ * (st.approx (1 - idx)).q sm.s2
            (argmax_QA ((st.approx idx).q sm.s2) (st.approx idx).nA) -
          (st.approx idx).q sm.s sm.a) := by
  refine ⟨argmax_QA_lt _ _ hnA, ?_, ?_⟩
  · intro b hb
    exact le_maxIdx _ _ b (Nat.le_pred_of_lt hb)
  · simp [DoubleQLearning.fit, DoubleQLearning.nextQ, hab, Table.update]

/-- Fixture: a DoubleQLearning state whose two models disagree, for the C3
witness. -/
def dqStW : DQState :=
  ⟨fun i => if i = 0 then ⟨2, fun _ a => (a : ℚ)⟩ else ⟨2, fun _ a => 10 * (a : ℚ)⟩,
   fun _ => lr0⟩

/-- C3 witness: the theorem applied at a concrete non-absorbing sample on
a concrete two-model state with two actions. -/
theorem doubleq_bootstrap_decoupled_witness :
    ((⟨0, 0, 1, 1, false⟩ : Sample).absorbing = false) ∧ (0 < (dqStW.approx 0).nA) ∧
    ((argmax_QA ((dqStW.approx 0).q 1) (dqStW.approx 0).nA < (dqStW.approx 0).nA) ∧
     (∀ b, b < (dqStW.approx 0).nA → (dqStW.approx 0).q 1 b ≤
       (dqStW.approx 0).q 1 (argmax_QA ((dqStW.approx 0).q 1) (dqStW.approx 0).nA)) ∧
     ((DoubleQLearning.fit 1 0 ⟨0, 0, 1, 1, false⟩ dqStW).approx 0).q 0 0 =
       (dqStW.approx 0).q 0 0 + ((dqStW.lr 0).call 0 0).1 *
         (1 + 1 * (dqStW.approx (1 - 0)).q 1
             (argmax_QA ((dqStW.approx 0).q 1) (dqStW.approx 0).nA) -
           (dqStW.approx 0).q 0 0)) :=
  ⟨rfl, by decide,
    doubleq_bootstrap_decoupled 1 0 ⟨0, 0, 1, 1, false⟩ dqStW rfl (by decide)⟩

/-- C4: a DoubleQLearning fit call leaves the non-chosen approximator and
its learning-rate schedule untouched, overwrites exactly the (s, a) entry
of the chosen approximator with some value, and advances exactly the
chosen learning-rate schedule. -/
theorem doubleq_frame (γ : ℚ) (idx : ℕ) (hidx : idx ≤ 1) (sm : Sample) (st : DQState) :
    ((DoubleQLearning.fit γ idx sm st).approx (1 - idx) = st.approx (1 - idx)) ∧
    ((DoubleQLearning.fit γ idx sm st).lr (1 - idx) = st.lr (1 - idx)) ∧
    (∃ v, (DoubleQLearning.fit γ idx sm st).approx idx =
      (st.approx idx).update sm.s sm.a v) ∧
    ((DoubleQLearning.fit γ idx sm st).lr idx = ((st.lr idx).call sm.s sm.a).2) := by
  have hne : 1 - idx ≠ idx := by omega
  refine ⟨?_, ?_, ?_, ?_⟩
  · simp [DoubleQLearning.fit, hne]
  · simp [DoubleQLearning.fit, hne]
  · refine ⟨(st.approx idx).q sm.s sm.a + ((st.lr idx).call sm.s sm.a).1 *
      (sm.r + γ * (if sm.absorbing then 0 else DoubleQLearning.nextQ st idx sm.s2) -
        (st.approx idx).q sm.s sm.a), ?_⟩
    simp [DoubleQLearning.fit]
  · simp [DoubleQLearning.fit]

/-- C4 witness: the frame theorem applied with the coin flip landing on
index 0 at a concrete sample and state. -/
theorem doubleq_frame_witness :
    ((0 : ℕ) ≤ 1) ∧
    (((DoubleQLearning.fit 1 0 ⟨0, 0, 1, 1, false⟩ dqStW).approx (1 - 0) =
        dqStW.approx (1 - 0)) ∧
     ((DoubleQLearning.fit 1 0 ⟨0, 0, 1, 1, false⟩ dqStW).lr (1 - 0) = dqStW.lr (1 - 0)) ∧
     (∃ v, (DoubleQLearning.fit 1 0 ⟨0, 0, 1, 1, false⟩ dqStW).approx 0 =
       (dqStW.approx 0).update 0 0 v) ∧
     ((DoubleQLearning.fit 1 0 ⟨0, 0, 1, 1, false⟩ dqStW).lr 0 =
       ((dqStW.lr 0).call 0 0).2)) :=
  ⟨Nat.zero_le 1, doubleq_frame 1 0 (Nat.zero_le 1) ⟨0, 0, 1, 1, false⟩ dqStW⟩

/-- C7: with a dataset whose length is not 1, or n_iterations different
from 1, the fit of every variant fails the leading assertion and raises before
reading or writing anything: the checked fit returns the error outcome. -/
theorem fit_asserts_single_sample (dataset : List Sample) (n_iterations : ℕ)
    (h : ¬(n_iterations = 1 ∧ dataset.length = 1)) (γ : ℚ) (st : TDState)
    (sst : SarsaState) (wst : WQLState) (spst : SpeedyState) (dst : DQState) (idx : ℕ)
    (policy : ℕ → ℕ) (sqrtFn : ℚ → ℚ) (draws : ℕ → ℕ → ℚ) :
    fitChecked (QLearning.fit γ) dataset n_iterations st = Except.error () ∧
    fitChecked (SARSA.fit γ policy) dataset n_iterations sst = Except.error () ∧
    fitChecked (WeightedQLearning.fit γ sqrtFn draws) dataset n_iterations wst =
      Except.error () ∧
    fitChecked (SpeedyQLearning.fit γ) dataset n_iterations spst = Except.error () ∧
    fitChecked (DoubleQLearning.fit γ idx) dataset n_iterations dst = Except.error () := by
  unfold fitChecked
  exact ⟨if_neg h, if_neg h, if_neg h, if_neg h, if_neg h⟩

/-- C7 witness: the assertion theorem applied to the empty dataset with
n_iterations = 1 for all five variants. -/
theorem fit_asserts_single_sample_witness :
    (¬((1 : ℕ) = 1 ∧ ([] : List Sample).length = 1)) ∧
    (fitChecked (QLearning.fit 1) [] 1 tdSt0 = Except.error () ∧
     fitChecked (SARSA.fit 1 id) [] 1 sarsaSt0 = Except.error () ∧
     fitChecked (WeightedQLearning.fit 1 id draws0) [] 1 wqlSt0 = Except.error () ∧
     fitChecked (SpeedyQLearning.fit 1) [] 1 spSt0 = Except.error () ∧
     fitChecked (DoubleQLearning.fit 1 0) [] 1 dqSt0 = Except.error ()) := by
  have h : ¬((1 : ℕ) = 1 ∧ ([] : List Sample).length = 1) := by simp
  exact ⟨h, fit_asserts_single_sample [] 1 h 1 tdSt0 sarsaSt0 wqlSt0 spSt0 dqSt0 0 id id
    draws0⟩

/-- C8: constructing DoubleQLearning fails with the assertion error exactly
when the ensemble does not have 2 models; with 2 models it succeeds, and
both learning-rate schedules of the constructed state are copies of the
single supplied schedule. -/
theorem doubleq_init_contract (e1 e2 : Ensemble) (lr : LRSchedule)
    (h1 : e1.n_models ≠ 2) (h2 : e2.n_models = 2) :
    DoubleQLearning.init e1 lr = Except.error () ∧
    DoubleQLearning.init e2 lr = Except.ok { approx := e2.models, lr := fun _ => lr } ∧
    (∀ st, DoubleQLearning.init e2 lr = Except.ok st → st.lr 0 = lr ∧ st.lr 1 = lr) := by
  unfold DoubleQLearning.init
  refine ⟨if_neg h1, by rw [if_pos h2], ?_⟩
  intro st hst
  rw [if_pos h2] at hst
  cases hst
  exact ⟨rfl, rfl⟩

/-- C8 witness: the construction contract applied to a 3-model ensemble
(rejected) and a 2-model ensemble (accepted). -/
theorem doubleq_init_contract_witness :
    ((Ensemble.mk 3 fun _ => tbl0).n_models ≠ 2) ∧
    ((Ensemble.mk 2 fun _ => tbl0).n_models = 2) ∧
    (DoubleQLearning.init ⟨3, fun _ => tbl0⟩ lr0 = Except.error () ∧
     DoubleQLearning.init ⟨2, fun _ => tbl0⟩ lr0 =
       Except.ok { approx := fun _ => tbl0, lr := fun _ => lr0 } ∧
     (∀ st, DoubleQLearning.init ⟨2, fun _ => tbl0⟩ lr0 = Except.ok st →
       st.lr 0 = lr0 ∧ st.lr 1 = lr0)) :=
  ⟨by decide, rfl,
    doubleq_init_contract ⟨3, fun _ => tbl0⟩ ⟨2, fun _ => tbl0⟩ lr0 (by decide) rfl⟩

/-- Each per-action weight of WeightedQLearning._next_q is non-negative. -/
theorem wqlWeight_nonneg (draws : ℕ → ℕ → ℚ) (precision nA a : ℕ) :
    0 ≤ wqlWeight draws precision nA a :=
  div_nonneg (Nat.cast_nonneg _) (Nat.cast_nonneg _)

/-- The per-action weights of WeightedQLearning._next_q sum to 1 over the
discrete action set: each sampled row contributes its argmax to exactly
one tally, and the tallies are divided by the row count. -/
theorem wqlWeight_sum_one (draws : ℕ → ℕ → ℚ) (precision nA : ℕ)
    (hp : 0 < precision) (hn : 0 < nA) :
    ∑ a in Finset.range nA, wqlWeight draws precision nA a = 1 := by
  have hmem : ∀ i ∈ Finset.range precision,
      argmax_QA (draws i) nA ∈ Finset.range nA := by
    intro i _
    exact Finset.mem_range.mpr (argmax_QA_lt (draws i) nA hn)
  have hcard : ∑ a in Finset.range nA,
      ((Finset.range precision).filter fun i => argmax_QA (draws i) nA = a).card
      = precision := by
    rw [← Finset.card_eq_sum_card_fiberwise hmem, Finset.card_range]
  unfold wqlWeight
  rw [← Finset.sum_div, ← Nat.cast_sum, hcard]
  exact div_self (Nat.cast_ne_zero.mpr (Nat.pos_iff_ne_zero.mp hp))

/-- C5: with sampling enabled, for every realized outcome of the Gaussian
draws the weights of WeightedQLearning._next_q are non-negative and sum to
1 over the discrete action set, and the returned bootstrap value — the
weighted mean of the per-action means — lies between the minimum and the
maximum of the means. -/
theorem wql_weighted_estimator (st : WQLState) (s2 : ℕ) (draws : ℕ → ℕ → ℚ)
    (hp : 0 < st.precision) (hn : 0 < st.approx.nA) :
    (∀ a, 0 ≤ wqlWeight draws st.precision st.approx.nA a) ∧
    (∑ a in Finset.range st.approx.nA, wqlWeight draws st.precision st.approx.nA a = 1) ∧
    minVal (st.approx.q s2) st.approx.nA ≤
      WeightedQLearning.nextQ (st.approx.q s2) st.approx.nA draws st.precision ∧
    WeightedQLearning.nextQ (st.approx.q s2) st.approx.nA draws st.precision ≤
      max_QA (st.approx.q s2) st.approx.nA := by
  refine ⟨fun a => wqlWeight_nonneg draws st.precision st.approx.nA a,
    wqlWeight_sum_one draws st.precision st.approx.nA hp hn, ?_, ?_⟩
  · have hterm : ∀ a ∈ Finset.range st.approx.nA,
        wqlWeight draws st.precision st.approx.nA a * minVal (st.approx.q s2) st.approx.nA ≤
        wqlWeight draws st.precision st.approx.nA a * st.approx.q s2 a := by
      intro a ha
      exact mul_le_mul_of_nonneg_left
        (minVal_le (st.approx.q s2) st.approx.nA a (Finset.mem_range.mp ha))
        (wqlWeight_nonneg draws st.precision st.approx.nA a)
    calc minVal (st.approx.q s2) st.approx.nA
        = (∑ a in Finset.range st.approx.nA, wqlWeight draws st.precision st.approx.nA a) *
            minVal (st.approx.q s2) st.approx.nA := by
          rw [wqlWeight_sum_one draws st.precision st.approx.nA hp hn, one_mul]
      _ = ∑ a in Finset.range st.approx.nA,
            wqlWeight draws st.precision st.approx.nA a *
              minVal (st.approx.q s2) st.approx.nA := by rw [Finset.sum_mul]
      _ ≤ ∑ a in Finset.range st.approx.nA,
            wqlWeight draws st.precision st.approx.nA a * st.approx.q s2 a :=
          Finset.sum_le_sum hterm
      _ = WeightedQLearning.nextQ (st.approx.q s2) st.approx.nA draws st.precision := rfl
  · have hterm : ∀ a ∈ Finset.range st.approx.nA,
        wqlWeight draws st.precision st.approx.nA a * st.approx.q s2 a ≤
        wqlWeight draws st.precision st.approx.nA a *
          max_QA (st.approx.q s2) st.approx.nA := by
      intro a ha
      exact mul_le_mul_of_nonneg_left
        (le_max_QA (st.approx.q s2) st.approx.nA a (Finset.mem_range.mp ha))
        (wqlWeight_nonneg draws st.precision st.approx.nA a)
    calc WeightedQLearning.nextQ (st.approx.q s2) st.approx.nA draws st.precision
        = ∑ a in Finset.range st.approx.nA,
            wqlWeight draws st.precision st.approx.nA a * st.approx.q s2 a := rfl
      _ ≤ ∑ a in Finset.range st.approx.nA,
            wqlWeight draws st.precision st.approx.nA a *
              max_QA (st.approx.q s2) st.approx.nA := Finset.sum_le_sum hterm
      _ = (∑ a in Finset.range st.approx.nA, wqlWeight draws st.precision st.approx.nA a) *
            max_QA (st.approx.q s2) st.approx.nA := by rw [Finset.sum_mul]
      _ = max_QA (st.approx.q s2) st.approx.nA := by
          rw [wqlWeight_sum_one draws st.precision st.approx.nA hp hn, one_mul]

/-- C5 witness: the weighted-estimator theorem applied to the concrete
two-action state of precision 2 with a concrete draw matrix. -/
theorem wql_weighted_estimator_witness :
    (0 < wqlSt0.precision) ∧ (0 < wqlSt0.approx.nA) ∧
    ((∀ a, 0 ≤ wqlWeight draws0 wqlSt0.precision wqlSt0.approx.nA a) ∧
     (∑ a in Finset.range wqlSt0.approx.nA,
        wqlWeight draws0 wqlSt0.precision wqlSt0.approx.nA a = 1) ∧
     minVal (wqlSt0.approx.q 1) wqlSt0.approx.nA ≤
       WeightedQLearning.nextQ (wqlSt0.approx.q 1) wqlSt0.approx.nA draws0
         wqlSt0.precision ∧
     WeightedQLearning.nextQ (wqlSt0.approx.q 1) wqlSt0.approx.nA draws0
         wqlSt0.precision ≤ max_QA (wqlSt0.approx.q 1) wqlSt0.approx.nA) :=
  ⟨by decide, by decide, wql_weighted_estimator wqlSt0 1 draws0 (by decide) (by decide)⟩

/-- The flooring of td.py line 178 leaves every entry at least 1e-10. -/
theorem sigmaFloor_ge (σ : ℕ × ℕ → ℚ) (k : ℕ × ℕ) : 1 / 10 ^ 10 ≤ sigmaFloor σ k := by
  unfold sigmaFloor
  split
  · exact le_refl _
  · exact le_of_not_lt (by assumption)

/-- One WeightedQLearning fit call preserves the sigma lower bound 1e-10:
either the sigma array is untouched, or it passes through the floor. -/
theorem wql_fit_sigma_ge (γ : ℚ) (sqrtFn : ℚ → ℚ) (draws : ℕ → ℕ → ℚ) (sm : Sample)
    (st : WQLState) (h : ∀ k, 1 / 10 ^ 10 ≤ st.sigma k) :
    ∀ k, 1 / 10 ^ 10 ≤ (WeightedQLearning.fit γ sqrtFn draws sm st).sigma k := by
  intro k
  simp only [WeightedQLearning.fit]
  rw [apply_ite (fun g : ℕ × ℕ → ℚ => g k)]
  split
  · exact sigmaFloor_ge _ k
  · exact h k

/-- C6: starting from construction, after any number of fit calls every
entry of the WeightedQLearning sigma array is at least 1e-10: sigma starts
at 1e10 and the recomputation floors entries below 1e-10 up to 1e-10. -/
theorem wql_sigma_always_ge (γ : ℚ) (sqrtFn : ℚ → ℚ) (draws : ℕ → ℕ → ℕ → ℚ)
    (samples : ℕ → Sample) (approx : Table) (lr : LRSchedule) (precision : ℕ) (k : ℕ) :
    ∀ key, 1 / 10 ^ 10 ≤
      (WeightedQLearning.run γ sqrtFn draws samples
        (WeightedQLearning.init approx lr precision) k).sigma key := by
  induction k with
  | zero =>
    intro key
    show (1 / 10 ^ 10 : ℚ) ≤ 10 ^ 10
    norm_num
  | succ k ih => exact wql_fit_sigma_ge γ sqrtFn (draws k) (samples k) _ ih

/-- One WeightedQLearning fit call preserves: every key visited at most
once still carries the initial sigma 1e10 (the sigma recomputation runs
only when the new count exceeds 1, and the floor fixes 1e10). -/
theorem wql_fit_fresh_sigma_step (γ : ℚ) (sqrtFn : ℚ → ℚ) (draws : ℕ → ℕ → ℚ)
    (sm : Sample) (st : WQLState)
    (h : ∀ k, st.n_updates k ≤ 1 → st.sigma k = 10 ^ 10) :
    ∀ k, (WeightedQLearning.fit γ sqrtFn draws sm st).n_updates k ≤ 1 →
      (WeightedQLearning.fit γ sqrtFn draws sm st).sigma k = 10 ^ 10 := by
  intro k hk
  have hfloor : ¬((10 ^ 10 : ℚ) < 1 / 10 ^ 10) := by norm_num
  by_cases hkey : k = (sm.s, sm.a)
  · subst hkey
    have hn : st.n_updates (sm.s, sm.a) + 1 ≤ 1 := by
      simpa [WeightedQLearning.fit] using hk
    have hlt : ¬(1 < st.n_updates (sm.s, sm.a) + 1) := by omega
    have hs : st.sigma (sm.s, sm.a) = 10 ^ 10 := h _ (by omega)
    simp [WeightedQLearning.fit, hlt, hs]
  · have hn : st.n_updates k ≤ 1 := by
      simpa [WeightedQLearning.fit, hkey] using hk
    have hs : st.sigma k = 10 ^ 10 := h _ hn
    by_cases hlt : 1 < st.n_updates (sm.s, sm.a) + 1
    · simp [WeightedQLearning.fit, hlt, sigmaFloor, hkey, hs, hfloor]
      norm_num
    · simp [WeightedQLearning.fit, hlt, hs]

/-- In every state reachable by fit calls from construction, a key visited
at most once still carries the initial sigma 1e10. -/
theorem wql_run_fresh_sigma (γ : ℚ) (sqrtFn : ℚ → ℚ) (draws : ℕ → ℕ → ℕ → ℚ)
    (samples : ℕ → Sample) (approx : Table) (lr : LRSchedule) (precision : ℕ) (k : ℕ) :
    ∀ key, (WeightedQLearning.run γ sqrtFn draws samples
        (WeightedQLearning.init approx lr precision) k).n_updates key ≤ 1 →
      (WeightedQLearning.run γ sqrtFn draws samples
        (WeightedQLearning.init approx lr precision) k).sigma key = 10 ^ 10 := by
  induction k with
  | zero => intro key _; rfl
  | succ k ih => exact wql_fit_fresh_sigma_step γ sqrtFn (draws k) (samples k) _ ih

/-- C10: after a fit call that raises the visitation count of a key from 0 to 1
in a state reachable from construction, the sigma entry of that key still
equals its initialization value 1e10, because the variance-and-sigma
recomputation runs only when the count exceeds 1. -/
theorem wql_first_visit_keeps_sigma (γ : ℚ) (sqrtFn : ℚ → ℚ) (draws : ℕ → ℕ → ℕ → ℚ)
    (samples : ℕ → Sample) (approx : Table) (lr : LRSchedule) (precision : ℕ) (k : ℕ)
    (sm : Sample) (draws2 : ℕ → ℕ → ℚ)
    (h : (WeightedQLearning.run γ sqrtFn draws samples
        (WeightedQLearning.init approx lr precision) k).n_updates (sm.s, sm.a) = 0) :
    (WeightedQLearning.fit γ sqrtFn draws2 sm
        (WeightedQLearning.run γ sqrtFn draws samples
          (WeightedQLearning.init approx lr precision) k)).n_updates (sm.s, sm.a) = 1 ∧
    (WeightedQLearning.fit γ sqrtFn draws2 sm
        (WeightedQLearning.run γ sqrtFn draws samples
          (WeightedQLearning.init approx lr precision) k)).sigma (sm.s, sm.a) =
      10 ^ 10 := by
  have hsig := wql_run_fresh_sigma γ sqrtFn draws samples approx lr precision k
    (sm.s, sm.a) (by omega)
  have hlt : ¬(1 < (WeightedQLearning.run γ sqrtFn draws samples
      (WeightedQLearning.init approx lr precision) k).n_updates (sm.s, sm.a) + 1) := by
    omega
  constructor
  · simp [WeightedQLearning.fit, h]
  · simp [WeightedQLearning.fit, hlt, hsig]

/-- Fixture: a constant sample stream for the C10 witness. -/
def samples0 : ℕ → Sample := fun _ => ⟨0, 0, 1, 1, false⟩

/-- Fixture: a constant per-call draw matrix for the C10 witness. -/
def draws1 : ℕ → ℕ → ℕ → ℚ := fun _ _ _ => 0

/-- C10 witness: the first fit call from construction on key (0, 0) sets
its count to 1 and leaves its sigma at 1e10. -/
theorem wql_first_visit_keeps_sigma_witness :
    ((WeightedQLearning.run 1 id draws1 samples0
        (WeightedQLearning.init tbl0 lr0 2) 0).n_updates (0, 0) = 0) ∧
    ((WeightedQLearning.fit 1 id draws0 ⟨0, 0, 1, 1, false⟩
        (WeightedQLearning.run 1 id draws1 samples0
          (WeightedQLearning.init tbl0 lr0 2) 0)).n_updates (0, 0) = 1 ∧
     (WeightedQLearning.fit 1 id draws0 ⟨0, 0, 1, 1, false⟩
        (WeightedQLearning.run 1 id draws1 samples0
          (WeightedQLearning.init tbl0 lr0 2) 0)).sigma (0, 0) = 10 ^ 10) :=
  ⟨rfl, wql_first_visit_keeps_sigma 1 id draws1 samples0 tbl0 lr0 2 0
    ⟨0, 0, 1, 1, false⟩ draws0 rfl⟩
